import Mathlib

/-!
Shallow embedding of the pyuvdata repository fragments relevant to the
specification: the FHD reader (`pyuvdata/uvdata/fhd.py`), and the utility
routines `uvcalibrate`, `apply_uvflag`, baseline encoding and
`configure_blt_rectangularity` (whose implementations are modelled from the
specification text, since only their tests are part of the source tree).

Machine floats are modelled by exact rationals; numpy complex values by pairs
of rationals; numpy arrays by lists; raised Python exceptions by
`Except`/`Option` error values.
-/

set_option linter.unusedVariables false

namespace Pyuvdata

/-! ## Exact complex arithmetic (stands in for numpy complex128) -/

/-- A complex number with rational components, the exact stand-in for a numpy
complex visibility or gain value. -/
@[ext]
structure QC where
  re : ℚ
  im : ℚ
deriving DecidableEq, Repr

/-- Complex multiplication. -/
def QC.mul (x y : QC) : QC :=
  ⟨x.re * y.re - x.im * y.im, x.re * y.im + x.im * y.re⟩

/-- Complex conjugation (numpy `conj`). -/
def QC.conj (x : QC) : QC := ⟨x.re, -x.im⟩

/-- Squared magnitude. -/
def QC.normSq (x : QC) : ℚ := x.re ^ 2 + x.im ^ 2

/-- Complex division by the standard formula. -/
def QC.div (x y : QC) : QC :=
  ⟨(x.re * y.re + x.im * y.im) / y.normSq, (x.im * y.re - x.re * y.im) / y.normSq⟩

theorem QC.normSq_ne_zero (y : QC) (h : y ≠ ⟨0, 0⟩) : y.normSq ≠ 0 := by
  intro h0
  apply h
  have h1 : y.re ^ 2 + y.im ^ 2 = 0 := h0
  have hre : y.re = 0 := by nlinarith [sq_nonneg y.re, sq_nonneg y.im]
  have him : y.im = 0 := by nlinarith [sq_nonneg y.re, sq_nonneg y.im]
  ext <;> simp [hre, him]

theorem QC.div_mul_cancel (x y : QC) (h : y ≠ ⟨0, 0⟩) : (x.div y).mul y = x := by
  have hs : y.normSq ≠ 0 := QC.normSq_ne_zero y h
  have hs2 : y.re ^ 2 + y.im ^ 2 ≠ 0 := hs
  ext
  · show (x.re * y.re + x.im * y.im) / y.normSq * y.re -
        (x.im * y.re - x.re * y.im) / y.normSq * y.im = x.re
    field_simp [QC.normSq]
    ring
  · show (x.re * y.re + x.im * y.im) / y.normSq * y.im +
        (x.im * y.re - x.re * y.im) / y.normSq * y.re = x.im
    field_simp [QC.normSq]
    ring

theorem QC.mul_div_cancel (x y : QC) (h : y ≠ ⟨0, 0⟩) : (x.mul y).div y = x := by
  have hs : y.normSq ≠ 0 := QC.normSq_ne_zero y h
  have hs2 : y.re ^ 2 + y.im ^ 2 ≠ 0 := hs
  ext
  · show ((x.re * y.re - x.im * y.im) * y.re + (x.re * y.im + x.im * y.re) * y.im) /
        y.normSq = x.re
    field_simp [QC.normSq]
    ring
  · show ((x.re * y.im + x.im * y.re) * y.re - (x.re * y.re - x.im * y.im) * y.im) /
        y.normSq = x.im
    field_simp [QC.normSq]
    ring

/-! ## Baseline encoding

Modelled from the spec: `antnums_to_baseline`/`baseline_to_antnums` live in
`pyuvdata/utils.py`, which is not part of the source tree (only its tests are).
-/

/-- Modelled from the spec: `antnums_to_baseline(ant1, ant2, Nants_telescope,
attempt256)` packs an antenna pair into a single baseline integer.  The legacy
scheme `256*ant1 + ant2` is used only when `attempt256` is requested and both
antenna numbers are at most 255; the extended scheme
`2048*ant1 + ant2 + 2^16 + 1` is used otherwise. -/
def antnums_to_baseline (ant1 ant2 : ℕ) (Nants_telescope : ℕ) (attempt256 : Bool) : ℕ :=
  if attempt256 = true ∧ ant1 ≤ 255 ∧ ant2 ≤ 255 then 256 * ant1 + ant2
  else 2048 * ant1 + ant2 + 2 ^ 16 + 1

/-- Modelled from the spec: `baseline_to_antnums(baseline, Nants_telescope)`
decodes a packed baseline integer, auto-selecting the scheme by comparing the
encoded value against the `2^16` threshold. -/
def baseline_to_antnums (baseline : ℕ) (Nants_telescope : ℕ) : ℕ × ℕ :=
  if 2 ^ 16 < baseline then
    ((baseline - 2 ^ 16 - 1) / 2048, (baseline - 2 ^ 16 - 1) % 2048)
  else
    (baseline / 256, baseline % 256)

/-! ## Calibration application (`uvcalibrate`)

Modelled from the spec: `uvcalibrate` lives in `pyuvdata/utils.py`, which is
not part of the source tree (only its tests are).
-/

/-- The `gain_convention` metadata of a UVCal object. -/
inductive GainConvention
  | divide
  | multiply
deriving DecidableEq, Repr

/-- Modelled from the spec: the per-visibility arithmetic of `uvcalibrate`.
With `gain_convention = "divide"` the visibility is divided by
`gain(ant1) * conj(gain(ant2))`; with `"multiply"` it is multiplied by the same
product; `undo = true` applies the inverse operation of whichever convention is
stored. -/
def calibrate_vis (conv : GainConvention) (undo : Bool) (g1 g2 v : QC) : QC :=
  match conv, undo with
  | .divide, false => v.div (g1.mul g2.conj)
  | .divide, true => v.mul (g1.mul g2.conj)
  | .multiply, false => v.mul (g1.mul g2.conj)
  | .multiply, true => v.div (g1.mul g2.conj)

/-- The slice of a UVData object that `uvcalibrate` acts on: per-blt antenna
pairs and the complex visibility array. -/
structure UVDataVis where
  ant_1_array : List ℕ
  ant_2_array : List ℕ
  data_array : List QC
deriving DecidableEq, Repr

/-- Modelled from the spec: `uvcalibrate` applied with per-antenna gains
`gains`, transforming each visibility by `calibrate_vis` with the gains of its
two antennas. -/
def uvcalibrate (uvd : UVDataVis) (gains : ℕ → QC) (conv : GainConvention)
    (undo : Bool) : UVDataVis :=
  { uvd with
    data_array :=
      List.zipWith (fun v p => calibrate_vis conv undo (gains p.1) (gains p.2) v)
        uvd.data_array (uvd.ant_1_array.zip uvd.ant_2_array) }

theorem calibrate_vis_undo (conv : GainConvention) (g1 g2 v : QC)
    (h : g1.mul g2.conj ≠ ⟨0, 0⟩) :
    calibrate_vis conv true g1 g2 (calibrate_vis conv false g1 g2 v) = v := by
  cases conv
  · exact QC.div_mul_cancel v _ h
  · exact QC.mul_div_cancel v _ h

theorem zipWith_get? {α β γ : Type} (f : α → β → γ) :
    ∀ (l1 : List α) (l2 : List β) (i : ℕ),
      (List.zipWith f l1 l2).get? i =
        match l1.get? i, l2.get? i with
        | some a, some b => some (f a b)
        | _, _ => none
  | [], _, _ => by simp
  | _ :: _, [], _ => by simp
  | a :: l1, b :: l2, 0 => by simp
  | a :: l1, b :: l2, i + 1 => by
    simpa using zipWith_get? f l1 l2 i

theorem calApply_undo (g : ℕ → QC) (conv : GainConvention) :
    ∀ (d : List QC) (z : List (ℕ × ℕ)),
      d.length ≤ z.length →
      (∀ p ∈ z, (g p.1).mul (g p.2).conj ≠ ⟨0, 0⟩) →
      List.zipWith (fun v p => calibrate_vis conv true (g p.1) (g p.2) v)
          (List.zipWith (fun v p => calibrate_vis conv false (g p.1) (g p.2) v) d z)
          z = d
  | [], _, _, _ => by simp
  | v :: d, [], h, _ => by simp at h
  | v :: d, p :: z, h, hnz => by
    simp only [List.zipWith]
    rw [calibrate_vis_undo conv _ _ _ (hnz p (List.mem_cons_self p z)),
      calApply_undo g conv d z (by simpa using h)
        (fun q hq => hnz q (List.mem_cons_of_mem p hq))]

/-- C1: with `gain_convention = "divide"` each visibility is divided by
`gain(ant1) * conj(gain(ant2))`, with `"multiply"` it is multiplied by the same
product, and in both conventions calibrating and then calibrating again with
`undo = true` recovers the original visibility array exactly (given that no
gain product vanishes). -/
theorem uvcalibrate_convention_and_undo (uvd : UVDataVis) (g : ℕ → QC)
    (hlen1 : uvd.ant_1_array.length = uvd.data_array.length)
    (hlen2 : uvd.ant_2_array.length = uvd.data_array.length)
    (hnz : ∀ p ∈ uvd.ant_1_array.zip uvd.ant_2_array,
      (g p.1).mul (g p.2).conj ≠ ⟨0, 0⟩) :
    (∀ i v a1 a2, uvd.data_array.get? i = some v →
      uvd.ant_1_array.get? i = some a1 → uvd.ant_2_array.get? i = some a2 →
      (uvcalibrate uvd g .divide false).data_array.get? i =
          some (v.div ((g a1).mul (g a2).conj)) ∧
      (uvcalibrate uvd g .multiply false).data_array.get? i =
          some (v.mul ((g a1).mul (g a2).conj))) ∧
    (∀ conv : GainConvention,
      uvcalibrate (uvcalibrate uvd g conv false) g conv true = uvd) := by
  constructor
  · intro i v a1 a2 hv h1 h2
    have hz : (uvd.ant_1_array.zip uvd.ant_2_array).get? i = some (a1, a2) := by
      rw [List.zip_eq_zipWith, zipWith_get?, h1, h2]
    constructor
    · show (List.zipWith _ uvd.data_array (uvd.ant_1_array.zip uvd.ant_2_array)).get? i = _
      rw [zipWith_get?, hv, hz]
      rfl
    · show (List.zipWith _ uvd.data_array (uvd.ant_1_array.zip uvd.ant_2_array)).get? i = _
      rw [zipWith_get?, hv, hz]
      rfl
  · intro conv
    have hlen : uvd.data_array.length ≤ (uvd.ant_1_array.zip uvd.ant_2_array).length := by
      rw [List.length_zip, hlen1, hlen2]
      simp
    cases uvd with
    | mk a1 a2 d =>
      simp only [uvcalibrate, UVDataVis.mk.injEq, and_true, true_and]
      exact calApply_undo g conv d _ hlen hnz

/-- Example gain table used to instantiate the calibration theorems. -/
def gainsEx : ℕ → QC
  | 0 => ⟨1, 1⟩
  | _ => ⟨2, 1⟩

/-- Example visibility data used to instantiate the calibration theorems. -/
def uvdEx : UVDataVis := ⟨[0, 1], [1, 0], [⟨1, 2⟩, ⟨3, 4⟩]⟩

/-- Closed-form instantiation of `uvcalibrate_convention_and_undo`. -/
theorem uvcalibrate_convention_and_undo_witness :
    (uvcalibrate uvdEx gainsEx .divide false).data_array.get? 0 =
      some ((⟨1, 2⟩ : QC).div ((gainsEx 0).mul ((gainsEx 1).conj))) ∧
    uvcalibrate (uvcalibrate uvdEx gainsEx .divide false) gainsEx .divide true = uvdEx := by
  have hz : uvdEx.ant_1_array.zip uvdEx.ant_2_array = [(0, 1), (1, 0)] := rfl
  have hnz : ∀ p ∈ uvdEx.ant_1_array.zip uvdEx.ant_2_array,
      (gainsEx p.1).mul (gainsEx p.2).conj ≠ (⟨0, 0⟩ : QC) := by
    rw [hz]
    intro p hp
    rcases List.mem_cons.mp hp with h0 | hp1
    · subst h0
      norm_num [gainsEx, QC.mul, QC.conj, QC.mk.injEq]
    · rcases List.mem_cons.mp hp1 with h0 | hp2
      · subst h0
        norm_num [gainsEx, QC.mul, QC.conj, QC.mk.injEq]
      · simp at hp2
  have h := uvcalibrate_convention_and_undo uvdEx gainsEx rfl rfl hnz
  exact ⟨(h.1 0 ⟨1, 2⟩ 0 1 rfl rfl rfl).1, h.2 .divide⟩

/-- C2: round trip of the baseline packing for antenna numbers up to 300 in the
extended scheme, together with the spec formulas for both encodings and the
threshold-based decoding scheme selection. -/
theorem baseline_packing_roundtrip (N : ℕ) :
    (∀ ant1 ant2, ant1 ≤ 300 → ant2 ≤ 300 →
      baseline_to_antnums (antnums_to_baseline ant1 ant2 N false) N = (ant1, ant2)) ∧
    (∀ ant1 ant2, ant1 ≤ 255 → ant2 ≤ 255 →
      antnums_to_baseline ant1 ant2 N true = 256 * ant1 + ant2) ∧
    (∀ ant1 ant2 (attempt256 : Bool), ¬(attempt256 = true ∧ ant1 ≤ 255 ∧ ant2 ≤ 255) →
      antnums_to_baseline ant1 ant2 N attempt256 = 2048 * ant1 + ant2 + 2 ^ 16 + 1) ∧
    (∀ b, b ≤ 2 ^ 16 → baseline_to_antnums b N = (b / 256, b % 256)) ∧
    (∀ b, 2 ^ 16 < b →
      baseline_to_antnums b N = ((b - 2 ^ 16 - 1) / 2048, (b - 2 ^ 16 - 1) % 2048)) := by
  refine ⟨?_, ?_, ?_, ?_, ?_⟩
  · intro ant1 ant2 h1 h2
    have henc : antnums_to_baseline ant1 ant2 N false =
        2048 * ant1 + ant2 + 2 ^ 16 + 1 := by
      simp [antnums_to_baseline]
    rw [henc, baseline_to_antnums, if_pos (by omega)]
    have hsub : 2048 * ant1 + ant2 + 2 ^ 16 + 1 - 2 ^ 16 - 1 = 2048 * ant1 + ant2 := by
      omega
    rw [hsub]
    simp only [Prod.mk.injEq]
    constructor <;> omega
  · intro ant1 ant2 h1 h2
    simp [antnums_to_baseline, h1, h2]
  · intro ant1 ant2 attempt256 h
    rw [antnums_to_baseline, if_neg h]
  · intro b hb
    rw [baseline_to_antnums, if_neg (by omega)]
  · intro b hb
    rw [baseline_to_antnums, if_pos hb]

/-- Closed-form instantiation of `baseline_packing_roundtrip`. -/
theorem baseline_packing_roundtrip_witness :
    baseline_to_antnums (antnums_to_baseline 300 257 2048 false) 2048 = (300, 257) ∧
    antnums_to_baseline 7 9 2048 true = 256 * 7 + 9 := by
  have h := baseline_packing_roundtrip 2048
  exact ⟨h.1 300 257 (by decide) (by decide), h.2.1 7 9 (by decide) (by decide)⟩

/-! ## FHD reader: filelist classification and required-file checks
(fhd.py lines 163-234) -/

/-- The file roles recognized by `read_fhd` filename-suffix sniffing. -/
inductive FileKind
  | xx
  | yy
  | xy
  | yx
  | params
  | obs
  | flags
  | layout
  | settings
  | other
deriving DecidableEq, Repr

/-- ASCII lower-casing of one character (filenames are ASCII; Python's
`str.lower`). -/
def asciiLower (c : Char) : Char :=
  if 'A' ≤ c ∧ c ≤ 'Z' then Char.ofNat (c.toNat + 32) else c

/-- Python `str.lower()` over a character-list string. -/
def pyLower (l : List Char) : List Char := l.map asciiLower

/-- Python `str.endswith(suf)` over character-list strings. -/
def endsWithL (l suf : List Char) : Bool := suf.isSuffixOf l

/-- Embedding of the suffix-matching chain of fhd.py lines 173-214; filenames
are modelled as character lists. -/
def classify (use_model : Bool) (file : List Char) : FileKind :=
  let data_name := if use_model then "_vis_model_".toList else "_vis_".toList
  let fl := pyLower file
  if endsWithL fl (data_name ++ "xx.sav".toList) then .xx
  else if endsWithL fl (data_name ++ "yy.sav".toList) then .yy
  else if endsWithL fl (data_name ++ "xy.sav".toList) then .xy
  else if endsWithL fl (data_name ++ "yx.sav".toList) then .yx
  else if endsWithL fl "_params.sav".toList then .params
  else if endsWithL fl "_obs.sav".toList then .obs
  else if endsWithL fl "_flags.sav".toList then .flags
  else if endsWithL fl "_layout.sav".toList then .layout
  else if endsWithL fl "_settings.txt".toList then .settings
  else .other

/-- The role name appearing in the duplicate-file error messages. -/
def roleName : FileKind → String
  | .xx => "xx datafiles"
  | .yy => "yy datafiles"
  | .xy => "xy datafiles"
  | .yx => "yx datafiles"
  | .params => "params files"
  | .obs => "obs files"
  | .flags => "flags files"
  | .layout => "layout files"
  | .settings => "settings files"
  | .other => ""

/-- The loop of fhd.py lines 173-214: accumulate the roles seen so far,
silently skipping unrecognized filenames and raising on a duplicate role. -/
def gatherFiles : List FileKind → List FileKind → Except String (List FileKind)
  | seen, [] => .ok seen
  | seen, k :: rest =>
    if k = .other then gatherFiles seen rest
    else if k ∈ seen then .error ("multiple " ++ roleName k ++ " in filelist")
    else gatherFiles (k :: seen) rest

/-- The missing-layout warning of fhd.py lines 228-232. -/
def layoutWarning : String :=
  "No layout file included in file list, antenna_postions will not be defined."

/-- The missing-settings warning of fhd.py line 234. -/
def settingsWarning : String :=
  "No settings file included in file list"

/-- Embedding of fhd.py lines 163-234: classify the filelist, raise on
duplicates, then run the required-file checks; on success return the roles
present and the warnings issued. -/
def read_fhd_sort_files (read_data use_model : Bool) (filelist : List (List Char)) :
    Except String (List FileKind × List String) :=
  match gatherFiles [] (filelist.map (classify use_model)) with
  | .error e => .error e
  | .ok seen =>
    if ¬(FileKind.xx ∈ seen ∨ FileKind.yy ∈ seen ∨ FileKind.xy ∈ seen ∨
        FileKind.yx ∈ seen) ∧ read_data = true then
      .error "No data files included in file list and read_data is True."
    else if FileKind.obs ∉ seen ∧ read_data = false then
      .error "No obs file included in file list and read_data is False."
    else if FileKind.params ∉ seen then
      .error "No params file included in file list"
    else if FileKind.flags ∉ seen then
      .error "No flags file included in file list"
    else
      .ok (seen,
        (if FileKind.layout ∉ seen then [layoutWarning] else []) ++
        (if FileKind.settings ∉ seen then [settingsWarning] else []))

theorem gatherFiles_error_iff :
    ∀ (rest seen : List FileKind),
      (∃ msg, gatherFiles seen rest = .error msg) ↔
        ∃ k, k ≠ FileKind.other ∧ ((k ∈ seen ∧ k ∈ rest) ∨ 2 ≤ rest.count k)
  | [], seen => by simp [gatherFiles]
  | k :: rest, seen => by
    by_cases hko : k = FileKind.other
    · subst hko
      rw [show gatherFiles seen (FileKind.other :: rest) = gatherFiles seen rest from rfl]
      rw [gatherFiles_error_iff rest seen]
      constructor
      · rintro ⟨x, hxo, hx⟩
        refine ⟨x, hxo, ?_⟩
        rcases hx with ⟨hs, hr⟩ | hc
        · exact Or.inl ⟨hs, List.mem_cons_of_mem _ hr⟩
        · exact Or.inr (le_trans hc (List.count_le_count_cons x _ rest))
      · rintro ⟨x, hxo, hx⟩
        refine ⟨x, hxo, ?_⟩
        rcases hx with ⟨hs, hr⟩ | hc
        · rcases List.mem_cons.mp hr with h | h
          · exact absurd h hxo
          · exact Or.inl ⟨hs, h⟩
        · rw [List.count_cons_of_ne hxo rest] at hc
          exact Or.inr hc
    · by_cases hks : k ∈ seen
      · have hred : gatherFiles seen (k :: rest) =
            .error ("multiple " ++ roleName k ++ " in filelist") := by
          simp [gatherFiles, hko, hks]
        constructor
        · intro _
          exact ⟨k, hko, Or.inl ⟨hks, List.mem_cons_self k rest⟩⟩
        · intro _
          exact ⟨_, hred⟩
      · have hred : gatherFiles seen (k :: rest) = gatherFiles (k :: seen) rest := by
          simp [gatherFiles, hko, hks]
        rw [hred, gatherFiles_error_iff rest (k :: seen)]
        constructor
        · rintro ⟨x, hxo, hx⟩
          refine ⟨x, hxo, ?_⟩
          by_cases hxk : x = k
          · subst hxk
            rcases hx with ⟨_, hr⟩ | hc
            · have : 1 ≤ rest.count x := List.count_pos_iff_mem.mpr hr
              exact Or.inr (by rw [List.count_cons_self]; omega)
            · exact Or.inr (le_trans hc (List.count_le_count_cons x _ rest))
          · rcases hx with ⟨hs, hr⟩ | hc
            · rcases List.mem_cons.mp hs with h | h
              · exact absurd h hxk
              · exact Or.inl ⟨h, List.mem_cons_of_mem _ hr⟩
            · rw [← List.count_cons_of_ne hxk rest] at hc
              exact Or.inr hc
        · rintro ⟨x, hxo, hx⟩
          refine ⟨x, hxo, ?_⟩
          by_cases hxk : x = k
          · subst hxk
            rcases hx with ⟨hs, _⟩ | hc
            · exact absurd hs hks
            · rw [List.count_cons_self] at hc
              have : x ∈ rest := List.count_pos_iff_mem.mp (by omega)
              exact Or.inl ⟨List.mem_cons_self x seen, this⟩
          · rcases hx with ⟨hs, hr⟩ | hc
            · rcases List.mem_cons.mp hr with h | h
              · exact absurd h hxk
              · exact Or.inl ⟨List.mem_cons_of_mem _ hs, h⟩
            · rw [List.count_cons_of_ne hxk rest] at hc
              exact Or.inr hc

theorem gatherFiles_ok_mem :
    ∀ (rest seen out : List FileKind), gatherFiles seen rest = .ok out →
      ∀ x, x ∈ out ↔ (x ∈ seen ∨ (x ∈ rest ∧ x ≠ FileKind.other))
  | [], seen, out => by
    intro h x
    simp only [gatherFiles, Except.ok.injEq] at h
    subst h
    simp
  | k :: rest, seen, out => by
    intro h x
    by_cases hko : k = FileKind.other
    · subst hko
      rw [show gatherFiles seen (FileKind.other :: rest) = gatherFiles seen rest from rfl]
        at h
      rw [gatherFiles_ok_mem rest seen out h x]
      constructor
      · rintro (hs | ⟨hr, hxo⟩)
        · exact Or.inl hs
        · exact Or.inr ⟨List.mem_cons_of_mem _ hr, hxo⟩
      · rintro (hs | ⟨hr, hxo⟩)
        · exact Or.inl hs
        · rcases List.mem_cons.mp hr with h1 | h1
          · exact absurd h1 hxo
          · exact Or.inr ⟨h1, hxo⟩
    · by_cases hks : k ∈ seen
      · simp [gatherFiles, hko, hks] at h
      · have hred : gatherFiles seen (k :: rest) = gatherFiles (k :: seen) rest := by
          simp [gatherFiles, hko, hks]
        rw [hred] at h
        rw [gatherFiles_ok_mem rest (k :: seen) out h x]
        constructor
        · rintro (hs | ⟨hr, hxo⟩)
          · rcases List.mem_cons.mp hs with h1 | h1
            · subst h1
              exact Or.inr ⟨List.mem_cons_self x rest, hko⟩
            · exact Or.inl h1
          · exact Or.inr ⟨List.mem_cons_of_mem _ hr, hxo⟩
        · rintro (hs | ⟨hr, hxo⟩)
          · exact Or.inl (List.mem_cons_of_mem _ hs)
          · rcases List.mem_cons.mp hr with h1 | h1
            · subst h1
              exact Or.inl (List.mem_cons_self x seen)
            · exact Or.inr ⟨h1, hxo⟩

/-- C4: `read_fhd` file sorting raises an error exactly when a recognized role
is duplicated, no data file is present while `read_data` is true, no obs file
is present while `read_data` is false, no params file is present, or no flags
file is present; unrecognized filenames are ignored (the condition depends
only on the recognized roles), and a missing layout or settings file only adds
the corresponding warning on the success path. -/
theorem read_fhd_sort_files_error_iff (read_data use_model : Bool)
    (filelist : List (List Char)) :
    ((∃ msg, read_fhd_sort_files read_data use_model filelist = .error msg) ↔
      ((∃ k, k ≠ FileKind.other ∧
          2 ≤ (filelist.map (classify use_model)).count k) ∨
        (read_data = true ∧ FileKind.xx ∉ filelist.map (classify use_model) ∧
          FileKind.yy ∉ filelist.map (classify use_model) ∧
          FileKind.xy ∉ filelist.map (classify use_model) ∧
          FileKind.yx ∉ filelist.map (classify use_model)) ∨
        (read_data = false ∧ FileKind.obs ∉ filelist.map (classify use_model)) ∨
        FileKind.params ∉ filelist.map (classify use_model) ∨
        FileKind.flags ∉ filelist.map (classify use_model))) ∧
    (∀ seen warns,
      read_fhd_sort_files read_data use_model filelist = .ok (seen, warns) →
      ((FileKind.layout ∉ filelist.map (classify use_model) ↔ layoutWarning ∈ warns) ∧
        (FileKind.settings ∉ filelist.map (classify use_model) ↔
          settingsWarning ∈ warns))) := by
  set roles := filelist.map (classify use_model) with hroles
  cases hgf : gatherFiles [] roles with
  | error e =>
    have herr : ∃ k, k ≠ FileKind.other ∧ 2 ≤ roles.count k := by
      have hh := (gatherFiles_error_iff roles []).mp ⟨e, hgf⟩
      rcases hh with ⟨k, hko, hk⟩
      rcases hk with ⟨hs, _⟩ | hc
      · simp at hs
      · exact ⟨k, hko, hc⟩
    have hred : read_fhd_sort_files read_data use_model filelist = .error e := by
      rw [read_fhd_sort_files, ← hroles, hgf]
    constructor
    · rw [hred]
      exact iff_of_true ⟨e, rfl⟩ (Or.inl herr)
    · intro s w hok
      rw [hred] at hok
      exact absurd hok (by simp)
  | ok seen =>
    have hnodup : ¬∃ k, k ≠ FileKind.other ∧ 2 ≤ roles.count k := by
      rintro ⟨k, hko, hc⟩
      have hh : ∃ msg, gatherFiles [] roles = .error msg :=
        (gatherFiles_error_iff roles []).mpr ⟨k, hko, Or.inr hc⟩
      rcases hh with ⟨msg, hmsg⟩
      rw [hgf] at hmsg
      exact absurd hmsg (by simp)
    have hmem : ∀ x, x ∈ seen ↔ (x ∈ roles ∧ x ≠ FileKind.other) := by
      intro x
      have hh := gatherFiles_ok_mem roles [] seen hgf x
      simpa using hh
    have hxx : FileKind.xx ∈ seen ↔ FileKind.xx ∈ roles := by
      rw [hmem]
      simp
    have hyy : FileKind.yy ∈ seen ↔ FileKind.yy ∈ roles := by
      rw [hmem]
      simp
    have hxy : FileKind.xy ∈ seen ↔ FileKind.xy ∈ roles := by
      rw [hmem]
      simp
    have hyx : FileKind.yx ∈ seen ↔ FileKind.yx ∈ roles := by
      rw [hmem]
      simp
    have hobs : FileKind.obs ∈ seen ↔ FileKind.obs ∈ roles := by
      rw [hmem]
      simp
    have hparams : FileKind.params ∈ seen ↔ FileKind.params ∈ roles := by
      rw [hmem]
      simp
    have hflags : FileKind.flags ∈ seen ↔ FileKind.flags ∈ roles := by
      rw [hmem]
      simp
    have hlayout : FileKind.layout ∈ seen ↔ FileKind.layout ∈ roles := by
      rw [hmem]
      simp
    have hsettings : FileKind.settings ∈ seen ↔ FileKind.settings ∈ roles := by
      rw [hmem]
      simp
    have hred : read_fhd_sort_files read_data use_model filelist =
        (if ¬(FileKind.xx ∈ seen ∨ FileKind.yy ∈ seen ∨ FileKind.xy ∈ seen ∨
            FileKind.yx ∈ seen) ∧ read_data = true then
          .error "No data files included in file list and read_data is True."
        else if FileKind.obs ∉ seen ∧ read_data = false then
          .error "No obs file included in file list and read_data is False."
        else if FileKind.params ∉ seen then
          .error "No params file included in file list"
        else if FileKind.flags ∉ seen then
          .error "No flags file included in file list"
        else
          .ok (seen,
            (if FileKind.layout ∉ seen then [layoutWarning] else []) ++
            (if FileKind.settings ∉ seen then [settingsWarning] else []))) := by
      rw [read_fhd_sort_files, ← hroles, hgf]
    constructor
    · rw [hred]
      by_cases h1 : ¬(FileKind.xx ∈ seen ∨ FileKind.yy ∈ seen ∨ FileKind.xy ∈ seen ∨
          FileKind.yx ∈ seen) ∧ read_data = true
      · rw [if_pos h1]
        exact iff_of_true ⟨_, rfl⟩ (Or.inr (Or.inl
          ⟨h1.2, fun h => h1.1 (Or.inl (hxx.mpr h)),
            fun h => h1.1 (Or.inr (Or.inl (hyy.mpr h))),
            fun h => h1.1 (Or.inr (Or.inr (Or.inl (hxy.mpr h)))),
            fun h => h1.1 (Or.inr (Or.inr (Or.inr (hyx.mpr h))))⟩))
      · rw [if_neg h1]
        by_cases h2 : FileKind.obs ∉ seen ∧ read_data = false
        · rw [if_pos h2]
          exact iff_of_true ⟨_, rfl⟩ (Or.inr (Or.inr (Or.inl
            ⟨h2.2, fun h => h2.1 (hobs.mpr h)⟩)))
        · rw [if_neg h2]
          by_cases h3 : FileKind.params ∉ seen
          · rw [if_pos h3]
            exact iff_of_true ⟨_, rfl⟩ (Or.inr (Or.inr (Or.inr (Or.inl
              (fun h => h3 (hparams.mpr h))))))
          · rw [if_neg h3]
            by_cases h4 : FileKind.flags ∉ seen
            · rw [if_pos h4]
              exact iff_of_true ⟨_, rfl⟩ (Or.inr (Or.inr (Or.inr (Or.inr
                (fun h => h4 (hflags.mpr h))))))
            · rw [if_neg h4]
              refine iff_of_false (by simp) ?_
              rintro (hdup | ⟨hrd, hnx, hny, hnxy, hnyx⟩ | ⟨hrd, hno⟩ | hnp | hnf)
              · exact hnodup hdup
              · refine h1 ⟨?_, hrd⟩
                rintro (h | h | h | h)
                · exact hnx (hxx.mp h)
                · exact hny (hyy.mp h)
                · exact hnxy (hxy.mp h)
                · exact hnyx (hyx.mp h)
              · exact h2 ⟨fun hc => hno (hobs.mp hc), hrd⟩
              · exact h3 (fun hc => hnp (hparams.mp hc))
              · exact h4 (fun hc => hnf (hflags.mp hc))
    · intro s w hok
      rw [hred] at hok
      by_cases h1 : ¬(FileKind.xx ∈ seen ∨ FileKind.yy ∈ seen ∨ FileKind.xy ∈ seen ∨
          FileKind.yx ∈ seen) ∧ read_data = true
      · rw [if_pos h1] at hok
        exact absurd hok (by simp)
      · rw [if_neg h1] at hok
        by_cases h2 : FileKind.obs ∉ seen ∧ read_data = false
        · rw [if_pos h2] at hok
          exact absurd hok (by simp)
        · rw [if_neg h2] at hok
          by_cases h3 : FileKind.params ∉ seen
          · rw [if_pos h3] at hok
            exact absurd hok (by simp)
          · rw [if_neg h3] at hok
            by_cases h4 : FileKind.flags ∉ seen
            · rw [if_pos h4] at hok
              exact absurd hok (by simp)
            · rw [if_neg h4] at hok
              simp only [Except.ok.injEq, Prod.mk.injEq] at hok
              obtain ⟨rfl, rfl⟩ := hok
              constructor
              · rw [← hlayout]
                by_cases hl : FileKind.layout ∈ seen
                · simp [hl, layoutWarning, settingsWarning]
                · simp [hl, layoutWarning, settingsWarning]
              · rw [← hsettings]
                by_cases hs : FileKind.settings ∈ seen
                · simp [hs, layoutWarning, settingsWarning]
                · simp [hs, layoutWarning, settingsWarning]

/-- Closed-form instantiation of `read_fhd_sort_files_error_iff`: the empty
filelist with `read_data` errors, and a filelist with data, params and flags
files but no layout file succeeds with the layout warning. -/
theorem read_fhd_sort_files_error_iff_witness :
    (∃ msg, read_fhd_sort_files true false [] = .error msg) ∧
    layoutWarning ∈ [layoutWarning, settingsWarning] := by
  constructor
  · refine ((read_fhd_sort_files_error_iff true false []).1).mpr ?_
    exact Or.inr (Or.inl ⟨rfl, by simp, by simp, by simp, by simp⟩)
  · have h := (read_fhd_sort_files_error_iff true false
      ["day1_vis_xx.sav".toList, "day1_params.sav".toList, "day1_flags.sav".toList]).2
      [.flags, .params, .xx] [layoutWarning, settingsWarning] rfl
    exact (h.1).mp (by decide)

/-! ## FHD reader: uvw and per-polarization data arrays (fhd.py lines 569-622) -/

/-- One per-blt row of the FHD `params` file: UU, VV, WW in light-seconds. -/
structure FhdParamsRow where
  uu : ℚ
  vv : ℚ
  ww : ℚ
deriving DecidableEq, Repr

/-- The exact value of `const.c.to("m/s").value` (astropy speed of light in
meters per second). -/
def speed_of_light : ℚ := 299792458

/-- The arrays produced by the data-reading part of `read_fhd` for one
polarization. -/
structure FhdVisArrays where
  uvw_array : List (ℚ × ℚ × ℚ)
  data_array : List QC
  flag_array : List Bool
  nsample_array : List ℚ
deriving DecidableEq, Repr

/-- Embedding of fhd.py lines 573-576 and 615-622: each uvw component is
`(-1)` times the params value times the speed of light in m/s; per
polarization the data are the complex conjugate of the stored FHD visibility,
the flags are `weights <= 0` and the nsamples are `abs(weights)`. -/
def read_fhd_vis (params : List FhdParamsRow) (vis : List QC) (weights : List ℚ) :
    FhdVisArrays :=
  { uvw_array := params.map fun p =>
      ((-1) * p.uu * speed_of_light, (-1) * p.vv * speed_of_light,
        (-1) * p.ww * speed_of_light)
    data_array := vis.map QC.conj
    flag_array := weights.map fun w => decide (w ≤ 0)
    nsample_array := weights.map fun w => |w| }

/-- C3: `read_fhd` sets each uvw component to minus the params value times the
speed of light, and per polarization sets the data to the conjugated FHD
visibility, the flags to `weights <= 0`, and the nsamples to the absolute
weights. -/
theorem read_fhd_vis_arrays (params : List FhdParamsRow) (vis : List QC)
    (weights : List ℚ) :
    (∀ i p, params.get? i = some p →
      (read_fhd_vis params vis weights).uvw_array.get? i =
        some (-(p.uu * speed_of_light), -(p.vv * speed_of_light),
          -(p.ww * speed_of_light))) ∧
    (∀ i v, vis.get? i = some v →
      (read_fhd_vis params vis weights).data_array.get? i = some ⟨v.re, -v.im⟩) ∧
    (∀ i w, weights.get? i = some w →
      (((read_fhd_vis params vis weights).flag_array.get? i = some true) ↔ w ≤ 0) ∧
      (read_fhd_vis params vis weights).nsample_array.get? i = some |w|) := by
  refine ⟨?_, ?_, ?_⟩
  · intro i p hp
    simp only [read_fhd_vis, List.get?_map, hp, Option.map_some', Option.some_inj,
      Prod.mk.injEq]
    refine ⟨by ring, by ring, by ring⟩
  · intro i v hv
    simp only [read_fhd_vis, List.get?_map, hv, Option.map_some']
    rfl
  · intro i w hw
    constructor
    · simp only [read_fhd_vis, List.get?_map, hw, Option.map_some', Option.some_inj]
      simp [eq_comm]
    · simp only [read_fhd_vis, List.get?_map, hw, Option.map_some']

/-- Closed-form instantiation of `read_fhd_vis_arrays`. -/
theorem read_fhd_vis_arrays_witness :
    (read_fhd_vis [⟨1, 2, 3⟩] [⟨5, 6⟩] [-2]).uvw_array.get? 0 =
      some (-(1 * speed_of_light), -(2 * speed_of_light), -(3 * speed_of_light)) ∧
    (read_fhd_vis [⟨1, 2, 3⟩] [⟨5, 6⟩] [-2]).data_array.get? 0 = some ⟨5, -6⟩ ∧
    ((read_fhd_vis [⟨1, 2, 3⟩] [⟨5, 6⟩] [-2]).flag_array.get? 0 = some true) ∧
    (read_fhd_vis [⟨1, 2, 3⟩] [⟨5, 6⟩] [-2]).nsample_array.get? 0 = some |(-2 : ℚ)| := by
  have h := read_fhd_vis_arrays [⟨1, 2, 3⟩] [⟨5, 6⟩] [-2]
  refine ⟨h.1 0 ⟨1, 2, 3⟩ rfl, h.2.1 0 ⟨5, 6⟩ rfl, ?_, (h.2.2 0 (-2) rfl).2⟩
  exact ((h.2.2 0 (-2) rfl).1).mpr (by norm_num)

/-! ## FHD reader: telescope location resolution (fhd.py lines 344-425) -/

/-- The two representations through which `read_fhd` records the telescope
location: a direct ECEF xyz assignment or a lat/lon/alt assignment. -/
inductive TelescopeLocation
  | ecef (xyz : ℚ × ℚ × ℚ)
  | latLonAlt (lla : ℚ × ℚ × ℚ)
deriving DecidableEq, Repr

/-- Outcome of the telescope-location resolution: the chosen location and the
warning issued, if any. -/
structure LocResolution where
  location : TelescopeLocation
  warning : Option String
deriving DecidableEq, Repr

/-- The common head of the disagreement warning messages. -/
def locationMismatchMessage : String :=
  "Telescope location derived from obs lat/lon/alt values does not match the location in the layout file."

/-- Embedding of fhd.py lines 358-425: telescope-location resolution against a
layout file.  The floating-point closeness tests `self._xyz_close` and
`self._latlonalt_close` enter as boolean-valued parameters; the
known-telescopes registry entry is `none` when `uvtel.get_telescope` returns
no match, otherwise it carries the registry ECEF location and lat/lon/alt. -/
def resolve_telescope_location
    (xyz_close : (ℚ × ℚ × ℚ) → (ℚ × ℚ × ℚ) → Bool)
    (latlonalt_close : (ℚ × ℚ × ℚ) → (ℚ × ℚ × ℚ) → Bool)
    (frame_is_itrf : Bool)
    (obs_latlonalt : ℚ × ℚ × ℚ)
    (location_latlonalt : ℚ × ℚ × ℚ)
    (arr_center : ℚ × ℚ × ℚ)
    (latlonalt_arr_center : ℚ × ℚ × ℚ)
    (known_telescope : Option ((ℚ × ℚ × ℚ) × (ℚ × ℚ × ℚ))) : LocResolution :=
  if frame_is_itrf then
    if xyz_close location_latlonalt arr_center ||
        latlonalt_close obs_latlonalt latlonalt_arr_center then
      ⟨.ecef arr_center, none⟩
    else
      match known_telescope with
      | some reg =>
        if latlonalt_close obs_latlonalt reg.2 then
          ⟨.ecef location_latlonalt, some (locationMismatchMessage ++
            " Value from obs lat/lon/alt matches the known_telescopes values, using them.")⟩
        else if xyz_close arr_center reg.1 then
          ⟨.ecef arr_center, some (locationMismatchMessage ++
            " Value from the layout file matches the known_telescopes values, using them.")⟩
        else
          ⟨.ecef reg.1, some (locationMismatchMessage ++
            " Neither location matches the values in known_telescopes. Defaulting to using the known_telescopes values.")⟩
      | none =>
        ⟨.ecef location_latlonalt, some (locationMismatchMessage ++
          " Telescope is not in known_telescopes. Defaulting to using the obs derived values.")⟩
  else ⟨.latLonAlt obs_latlonalt, none⟩

/-- C5: when layout and obs locations disagree under both closeness tests, the
precedence is obs-derived value if it matches the registry, else the layout
value if it matches the registry, else the registry value when the telescope
is known, else the obs-derived value; each branch warns naming the source
used; a non-itrf layout frame uses the obs lat/lon/alt outright. -/
theorem resolve_telescope_location_precedence
    (xyz_close latlonalt_close : (ℚ × ℚ × ℚ) → (ℚ × ℚ × ℚ) → Bool)
    (obs_latlonalt location_latlonalt arr_center latlonalt_arr_center : ℚ × ℚ × ℚ)
    (hx : xyz_close location_latlonalt arr_center = false)
    (hl : latlonalt_close obs_latlonalt latlonalt_arr_center = false) :
    (∀ reg, latlonalt_close obs_latlonalt reg.2 = true →
      resolve_telescope_location xyz_close latlonalt_close true obs_latlonalt
        location_latlonalt arr_center latlonalt_arr_center (some reg) =
      ⟨.ecef location_latlonalt, some (locationMismatchMessage ++
        " Value from obs lat/lon/alt matches the known_telescopes values, using them.")⟩) ∧
    (∀ reg, latlonalt_close obs_latlonalt reg.2 = false →
      xyz_close arr_center reg.1 = true →
      resolve_telescope_location xyz_close latlonalt_close true obs_latlonalt
        location_latlonalt arr_center latlonalt_arr_center (some reg) =
      ⟨.ecef arr_center, some (locationMismatchMessage ++
        " Value from the layout file matches the known_telescopes values, using them.")⟩) ∧
    (∀ reg, latlonalt_close obs_latlonalt reg.2 = false →
      xyz_close arr_center reg.1 = false →
      resolve_telescope_location xyz_close latlonalt_close true obs_latlonalt
        location_latlonalt arr_center latlonalt_arr_center (some reg) =
      ⟨.ecef reg.1, some (locationMismatchMessage ++
        " Neither location matches the values in known_telescopes. Defaulting to using the known_telescopes values.")⟩) ∧
    (resolve_telescope_location xyz_close latlonalt_close true obs_latlonalt
        location_latlonalt arr_center latlonalt_arr_center none =
      ⟨.ecef location_latlonalt, some (locationMismatchMessage ++
        " Telescope is not in known_telescopes. Defaulting to using the obs derived values.")⟩) ∧
    (∀ reg, resolve_telescope_location xyz_close latlonalt_close false obs_latlonalt
        location_latlonalt arr_center latlonalt_arr_center reg =
      ⟨.latLonAlt obs_latlonalt, none⟩) := by
  refine ⟨?_, ?_, ?_, ?_, ?_⟩
  · intro reg hro
    simp [resolve_telescope_location, hx, hl, hro]
  · intro reg hro hrl
    simp [resolve_telescope_location, hx, hl, hro, hrl]
  · intro reg hro hrl
    simp [resolve_telescope_location, hx, hl, hro, hrl]
  · simp [resolve_telescope_location, hx, hl]
  · intro reg
    simp [resolve_telescope_location]

/-- Closed-form instantiation of `resolve_telescope_location_precedence`. -/
theorem resolve_telescope_location_precedence_witness :
    resolve_telescope_location (fun _ _ => false) (fun _ _ => false) true
      (0, 0, 0) (1, 1, 1) (2, 2, 2) (3, 3, 3) (some ((4, 4, 4), (5, 5, 5))) =
    ⟨.ecef (4, 4, 4), some (locationMismatchMessage ++
      " Neither location matches the values in known_telescopes. Defaulting to using the known_telescopes values.")⟩ := by
  exact (resolve_telescope_location_precedence (fun _ _ => false) (fun _ _ => false)
    (0, 0, 0) (1, 1, 1) (2, 2, 2) (3, 3, 3) rfl rfl).2.2.1 ((4, 4, 4), (5, 5, 5)) rfl rfl

/-! ## FHD reader: layout scalar fields (fhd.py lines 466-513) -/

/-- The scalar fields of the FHD `layout` structure that lines 466-513 of
fhd.py consume, plus the remaining free-form fields destined for
`extra_keywords`.  `diameters` is `none` when the layout file has no
diameters field. -/
structure FhdLayout where
  gst0 : ℚ
  ref_date : String
  earth_degpd : ℚ
  dut1 : ℚ
  time_system : String
  diameters : Option (List ℚ)
  extra_fields : List (String × String)
deriving DecidableEq, Repr

/-- The object attributes populated from the layout scalar fields.  Attributes
never assigned by this code region stay `none`. -/
structure FhdLayoutResult where
  gst0 : ℚ
  rdate : Option String
  earth_omega : ℚ
  dut1 : ℚ
  timesys : Option String
  antenna_diameters : Option (List ℚ)
  extra_keywords : List (String × String)
deriving DecidableEq, Repr

/-- The explicit ignore-list of fhd.py lines 487-500. -/
def layout_fields_ignore : List String :=
  ["diff_utc", "pol_type", "n_pol_cal_params", "mount_type", "axis_offset",
    "pola", "pola_orientation", "pola_cal_params", "polb", "polb_orientation",
    "polb_cal_params", "beam_fwhm"]

/-- Extra-keyword name mangling of fhd.py lines 505-507: names longer than 8
characters lose their underscores, and the result is upper-cased. -/
def fhdKeyword (field : String) : String :=
  (if 8 < field.length then field.replace "_" "" else field).toUpper

/-- Embedding of fhd.py lines 466-513.  Note lines 482-484: when a
`diameters` field is present the code assigns `self.timesys` from
`time_system` a second time and removes the field from the pass-through list;
the antenna-diameter attribute itself is never populated. -/
def read_fhd_layout_fields (layout : FhdLayout) : FhdLayoutResult :=
  let rdate := if layout.ref_date ≠ "" then some layout.ref_date.toLower else none
  let timesys := layout.time_system.toUpper.trim
  let timesys := if layout.diameters.isSome then layout.time_system.toUpper.trim
    else timesys
  { gst0 := layout.gst0
    rdate := rdate
    earth_omega := layout.earth_degpd
    dut1 := layout.dut1
    timesys := some timesys
    antenna_diameters := none
    extra_keywords :=
      (layout.extra_fields.filter fun p => !(layout_fields_ignore.contains p.1)).map
        fun p => (fhdKeyword p.1, p.2) }

/-- C7 (code bug): even when the layout file carries a `diameters` field, the
antenna-diameter attribute is never populated — the `diameters` branch
re-assigns `timesys` from `time_system` instead — while `gst0`, the Earth
rotation rate, `dut1` and the time system are copied onto their attributes. -/
theorem read_fhd_layout_diameters_dropped (layout : FhdLayout) :
    (read_fhd_layout_fields layout).antenna_diameters = none ∧
    (read_fhd_layout_fields layout).timesys = some layout.time_system.toUpper.trim ∧
    (read_fhd_layout_fields layout).gst0 = layout.gst0 ∧
    (read_fhd_layout_fields layout).earth_omega = layout.earth_degpd ∧
    (read_fhd_layout_fields layout).dut1 = layout.dut1 := by
  refine ⟨rfl, ?_, rfl, rfl, rfl⟩
  simp [read_fhd_layout_fields]

/-! ## Flag application (`apply_uvflag`)

Modelled from the spec: `apply_uvflag` lives in `pyuvdata/utils.py`, which is
not part of the source tree (only its tests are).
-/

/-- The mode of a UVFlag object: boolean flags or float metrics. -/
inductive UVFMode
  | flag
  | metric
deriving DecidableEq, Repr

/-- The slice of a UVFlag object that `apply_uvflag` consults: mode, time and
frequency axes, and the flag array indexed by (baseline-time, frequency). -/
structure UVFlagM where
  mode : UVFMode
  time_array : List ℚ
  freq_array : List ℚ
  flag_array : List (List Bool)
deriving DecidableEq, Repr

/-- The slice of a UVData object that `apply_uvflag` updates. -/
structure UVDataFl where
  time_array : List ℚ
  freq_array : List ℚ
  flag_array : List (List Bool)
deriving DecidableEq, Repr

/-- Index-aware list map, used to pair each flag entry with its blt/frequency
index. -/
def mapWithIdx {α β : Type} (f : ℕ → α → β) : ℕ → List α → List β
  | _, [] => []
  | i, a :: rest => f i a :: mapWithIdx f (i + 1) rest

/-- Modelled from the spec: the UVFlag flag consulted for baseline-time `i`
and frequency `f`; an axis reduced to length one broadcasts its single entry
across the whole mismatched axis. -/
def uvfFlagAt (uvf : UVFlagM) (i f : ℕ) : Bool :=
  let ti := if uvf.time_array.length = 1 then 0 else i
  let fi := if uvf.freq_array.length = 1 then 0 else f
  (((uvf.flag_array.get? ti).getD []).get? fi).getD false

/-- Modelled from the spec: `apply_uvflag` requires flag mode, requires the
frequency and time axes to match exactly unless the UVFlag side has been
reduced to a single frequency or single time, and ORs the (broadcast) UVFlag
flags onto the UVData flag array. -/
def apply_uvflag (uvd : UVDataFl) (uvf : UVFlagM) : Except String UVDataFl :=
  if uvf.mode ≠ UVFMode.flag then .error "UVFlag must be flag mode"
  else if uvf.freq_array ≠ uvd.freq_array ∧ uvf.freq_array.length ≠ 1 then
    .error "UVFlag and UVData have mismatched frequency arrays"
  else if uvf.time_array ≠ uvd.time_array ∧ uvf.time_array.length ≠ 1 then
    .error "UVFlag and UVData have mismatched time arrays"
  else
    .ok { uvd with
      flag_array :=
        mapWithIdx (fun i row => mapWithIdx (fun f b => b || uvfFlagAt uvf i f) 0 row)
          0 uvd.flag_array }

theorem mapWithIdx_get? {α β : Type} (f : ℕ → α → β) :
    ∀ (l : List α) (s i : ℕ),
      (mapWithIdx f s l).get? i = (l.get? i).map (f (s + i))
  | [], s, i => by simp [mapWithIdx]
  | a :: l, s, 0 => by simp [mapWithIdx]
  | a :: l, s, i + 1 => by
    simp only [mapWithIdx, List.get?]
    rw [mapWithIdx_get? f l (s + 1) i]
    have harith : s + 1 + i = s + (i + 1) := by omega
    rw [harith]

theorem mapWithIdx_mem_true {α : Type} (f : ℕ → α → Bool)
    (h : ∀ j a, f j a = true) :
    ∀ (s : ℕ) (l : List α), ∀ b ∈ mapWithIdx f s l, b = true
  | s, [] => by simp [mapWithIdx]
  | s, a :: l => by
    intro b hb
    rcases List.mem_cons.mp hb with h1 | h1
    · rw [h1, h s a]
    · exact mapWithIdx_mem_true f h (s + 1) l b h1

/-- C6: `apply_uvflag` rejects metric mode, rejects mismatched full frequency
(resp. time) arrays unless the UVFlag side has a single frequency (resp.
time), and in the broadcast cases a flag in the single UVFlag channel (resp.
time) flags all frequencies of the corresponding baseline-time (resp. all
baseline-times at the corresponding frequency). -/
theorem apply_uvflag_checks_and_broadcast (uvd : UVDataFl) (uvf : UVFlagM) :
    (uvf.mode = UVFMode.metric →
      apply_uvflag uvd uvf = .error "UVFlag must be flag mode") ∧
    (uvf.mode = UVFMode.flag → uvf.freq_array ≠ uvd.freq_array →
      uvf.freq_array.length ≠ 1 →
      apply_uvflag uvd uvf = .error "UVFlag and UVData have mismatched frequency arrays") ∧
    (uvf.mode = UVFMode.flag →
      (uvf.freq_array = uvd.freq_array ∨ uvf.freq_array.length = 1) →
      uvf.time_array ≠ uvd.time_array → uvf.time_array.length ≠ 1 →
      apply_uvflag uvd uvf = .error "UVFlag and UVData have mismatched time arrays") ∧
    (uvf.mode = UVFMode.flag → uvf.freq_array.length = 1 →
      uvf.time_array = uvd.time_array → uvf.time_array.length ≠ 1 →
      ∀ out, apply_uvflag uvd uvf = .ok out →
      ∀ i frow, uvf.flag_array.get? i = some frow → frow.get? 0 = some true →
      ∀ orow, out.flag_array.get? i = some orow → ∀ b ∈ orow, b = true) ∧
    (uvf.mode = UVFMode.flag → uvf.time_array.length = 1 →
      uvf.freq_array = uvd.freq_array → uvf.freq_array.length ≠ 1 →
      ∀ out, apply_uvflag uvd uvf = .ok out →
      ∀ f frow, uvf.flag_array.get? 0 = some frow → frow.get? f = some true →
      ∀ i orow, out.flag_array.get? i = some orow →
      ∀ b, orow.get? f = some b → b = true) := by
  refine ⟨?_, ?_, ?_, ?_, ?_⟩
  · intro hm
    rw [apply_uvflag, if_pos (by rw [hm]; simp)]
  · intro hm hf hf1
    rw [apply_uvflag, if_neg (by rw [hm]; simp), if_pos ⟨hf, hf1⟩]
  · intro hm hf ht ht1
    have hfneg : ¬(uvf.freq_array ≠ uvd.freq_array ∧ uvf.freq_array.length ≠ 1) := by
      rcases hf with hf | hf
      · exact fun hc => hc.1 hf
      · exact fun hc => hc.2 hf
    rw [apply_uvflag, if_neg (by rw [hm]; simp), if_neg hfneg, if_pos ⟨ht, ht1⟩]
  · intro hm hf1 ht ht1 out hout i frow hfrow hflag orow horow b hb
    have hfneg : ¬(uvf.freq_array ≠ uvd.freq_array ∧ uvf.freq_array.length ≠ 1) :=
      fun hc => hc.2 hf1
    have htneg : ¬(uvf.time_array ≠ uvd.time_array ∧ uvf.time_array.length ≠ 1) :=
      fun hc => hc.1 ht
    rw [apply_uvflag, if_neg (by rw [hm]; simp), if_neg hfneg, if_neg htneg] at hout
    simp only [Except.ok.injEq] at hout
    subst hout
    have hrow : (mapWithIdx
        (fun i row => mapWithIdx (fun f b => b || uvfFlagAt uvf i f) 0 row)
        0 uvd.flag_array).get? i =
        (uvd.flag_array.get? i).map
          (fun row => mapWithIdx (fun f b => b || uvfFlagAt uvf i f) 0 row) := by
      rw [mapWithIdx_get?]
      simp
    rw [hrow] at horow
    rcases Option.map_eq_some'.mp horow with ⟨urow, hurow, horoweq⟩
    subst horoweq
    have hat : ∀ j, uvfFlagAt uvf i j = true := by
      intro j
      rw [uvfFlagAt]
      simp only [hf1, if_pos, if_true]
      have hti : (if uvf.time_array.length = 1 then 0 else i) = i := by
        rw [if_neg ht1]
      rw [hti, hfrow]
      rw [List.get?_eq_getElem?] at hflag
      simp [hflag]
    exact mapWithIdx_mem_true _ (fun j a => by rw [hat j]; simp) 0 urow b hb
  · intro hm ht1 hf hf1 out hout f frow hfrow hflag i orow horow b hb
    have hfneg : ¬(uvf.freq_array ≠ uvd.freq_array ∧ uvf.freq_array.length ≠ 1) :=
      fun hc => hc.1 hf
    have htneg : ¬(uvf.time_array ≠ uvd.time_array ∧ uvf.time_array.length ≠ 1) :=
      fun hc => hc.2 ht1
    rw [apply_uvflag, if_neg (by rw [hm]; simp), if_neg hfneg, if_neg htneg] at hout
    simp only [Except.ok.injEq] at hout
    subst hout
    have hrow : (mapWithIdx
        (fun i row => mapWithIdx (fun f b => b || uvfFlagAt uvf i f) 0 row)
        0 uvd.flag_array).get? i =
        (uvd.flag_array.get? i).map
          (fun row => mapWithIdx (fun f b => b || uvfFlagAt uvf i f) 0 row) := by
      rw [mapWithIdx_get?]
      simp
    rw [hrow] at horow
    rcases Option.map_eq_some'.mp horow with ⟨urow, hurow, horoweq⟩
    subst horoweq
    rw [mapWithIdx_get?] at hb
    rcases Option.map_eq_some'.mp hb with ⟨b0, hb0, hbeq⟩
    have hat : uvfFlagAt uvf i f = true := by
      rw [uvfFlagAt]
      simp only [ht1, if_pos, if_true]
      have hfi : (if uvf.freq_array.length = 1 then 0 else f) = f := by
        rw [if_neg hf1]
      rw [hfi, hfrow]
      rw [List.get?_eq_getElem?] at hflag
      simp [hflag]
    subst hbeq
    simp only [Nat.zero_add]
    rw [hat]
    simp

/-- Closed-form instantiation of `apply_uvflag_checks_and_broadcast`: a
single-frequency UVFlag flags the whole frequency row of the matching
baseline-time, and a metric-mode UVFlag is rejected. -/
theorem apply_uvflag_checks_and_broadcast_witness :
    (∀ b ∈ [true, true], b = true) ∧
    apply_uvflag ⟨[0, 1], [10, 20], [[false, false], [false, false]]⟩
      ⟨.metric, [0, 1], [10, 20], [[true, true], [true, true]]⟩ =
      .error "UVFlag must be flag mode" := by
  constructor
  · have h := (apply_uvflag_checks_and_broadcast
      ⟨[0, 1], [10, 20], [[false, false], [false, false]]⟩
      ⟨.flag, [0, 1], [10], [[true], [false]]⟩).2.2.2.1
      rfl rfl rfl (by decide)
      ⟨[0, 1], [10, 20], [[true, true], [false, false]]⟩ rfl
      0 [true] rfl rfl [true, true] rfl
    exact h
  · exact (apply_uvflag_checks_and_broadcast
      ⟨[0, 1], [10, 20], [[false, false], [false, false]]⟩
      ⟨.metric, [0, 1], [10, 20], [[true, true], [true, true]]⟩).1 rfl

/-! ## blt-axis rectangularity (`configure_blt_rectangularity`)

Modelled from the spec: `configure_blt_rectangularity` lives in
`pyuvdata/uvdata/initializers.py`, which is not part of the source tree (only
its tests are).
-/

/-- Accumulating pass collecting the unique values of a list in order of first
occurrence. -/
def uniqueValsAux (acc : List ℤ) (l : List ℤ) : List ℤ :=
  l.foldl (fun acc x => if x ∈ acc then acc else acc ++ [x]) acc

/-- The unique values of a list in order of first occurrence. -/
def uniqueVals (l : List ℤ) : List ℤ := uniqueValsAux [] l

/-- Modelled from the spec: rectangularity auto-detection of
`configure_blt_rectangularity` on full `time_array`/`baseline_array` inputs.
Returns `(Nbls, Ntimes, blts_are_rectangular, time_axis_faster_than_bls)`.
The blt axis is rectangular when it is exactly one of the two block layouts
over the unique times and baselines; the fast axis is read off the first
block: a constant-time first block means baselines vary fastest (flag false),
a constant-baseline first block means times vary fastest (flag true). -/
def configure_blt_rectangularity (time_array baseline_array : List ℤ) :
    ℕ × ℕ × Bool × Bool :=
  let utimes := uniqueVals time_array
  let ubls := uniqueVals baseline_array
  let nt := utimes.length
  let nb := ubls.length
  if time_array.length ≠ nt * nb then (nb, nt, false, false)
  else if time_array = utimes.bind (fun t => List.replicate nb t) ∧
      baseline_array = (List.replicate nt ubls).join then
    (nb, nt, true, false)
  else if baseline_array = ubls.bind (fun b => List.replicate nt b) ∧
      time_array = (List.replicate nb utimes).join then
    (nb, nt, true, true)
  else (nb, nt, false, false)

theorem uniqueValsAux_of_subset :
    ∀ (l acc : List ℤ), (∀ x ∈ l, x ∈ acc) → uniqueValsAux acc l = acc
  | [], acc, _ => rfl
  | a :: l, acc, h => by
    have ha : a ∈ acc := h a (List.mem_cons_self a l)
    show uniqueValsAux (if a ∈ acc then acc else acc ++ [a]) l = acc
    rw [if_pos ha]
    exact uniqueValsAux_of_subset l acc (fun x hx => h x (List.mem_cons_of_mem a hx))

theorem uniqueValsAux_of_fresh :
    ∀ (l acc : List ℤ), l.Nodup → (∀ x ∈ l, x ∉ acc) →
      uniqueValsAux acc l = acc ++ l
  | [], acc, _, _ => by simp [uniqueValsAux]
  | a :: l, acc, hnd, h => by
    have ha : a ∉ acc := h a (List.mem_cons_self a l)
    show uniqueValsAux (if a ∈ acc then acc else acc ++ [a]) l = acc ++ a :: l
    rw [if_neg ha]
    have hstep := uniqueValsAux_of_fresh l (acc ++ [a]) (List.Nodup.of_cons hnd)
      (fun x hx => by
        intro hmem
        rcases List.mem_append.mp hmem with hacc | hone
        · exact h x (List.mem_cons_of_mem a hx) hacc
        · rcases List.mem_singleton.mp hone with rfl
          exact (List.nodup_cons.mp hnd).1 hx)
    rw [hstep, List.append_assoc]
    rfl

theorem uniqueValsAux_append (l1 l2 acc : List ℤ) :
    uniqueValsAux acc (l1 ++ l2) = uniqueValsAux (uniqueValsAux acc l1) l2 :=
  List.foldl_append _ acc l1 l2

theorem uniqueValsAux_replicate_mem (t : ℤ) (n : ℕ) (acc : List ℤ) (h : t ∈ acc) :
    uniqueValsAux acc (List.replicate n t) = acc :=
  uniqueValsAux_of_subset _ acc (fun x hx => by
    rcases List.eq_of_mem_replicate hx with rfl
    exact h)

theorem uniqueValsAux_replicate_fresh (t : ℤ) (n : ℕ) (acc : List ℤ)
    (h : t ∉ acc) (hn : 1 ≤ n) :
    uniqueValsAux acc (List.replicate n t) = acc ++ [t] := by
  cases n with
  | zero => omega
  | succ m =>
    rw [List.replicate_succ]
    show uniqueValsAux (if t ∈ acc then acc else acc ++ [t]) (List.replicate m t) =
      acc ++ [t]
    rw [if_neg h]
    exact uniqueValsAux_replicate_mem t m (acc ++ [t])
      (List.mem_append.mpr (Or.inr (List.mem_singleton.mpr rfl)))

theorem uniqueValsAux_bind_replicate (nb : ℕ) (hnb : 1 ≤ nb) :
    ∀ (us acc : List ℤ), us.Nodup → (∀ x ∈ us, x ∉ acc) →
      uniqueValsAux acc (us.bind fun t => List.replicate nb t) = acc ++ us
  | [], acc, _, _ => by simp [uniqueValsAux]
  | t :: us, acc, hnd, h => by
    have hcons : (t :: us).bind (fun t => List.replicate nb t) =
        List.replicate nb t ++ us.bind (fun t => List.replicate nb t) := rfl
    rw [hcons, uniqueValsAux_append,
      uniqueValsAux_replicate_fresh t nb acc (h t (List.mem_cons_self t us)) hnb,
      uniqueValsAux_bind_replicate nb hnb us (acc ++ [t]) (List.Nodup.of_cons hnd)
        (fun x hx => by
          intro hmem
          rcases List.mem_append.mp hmem with hacc | hone
          · exact h x (List.mem_cons_of_mem t hx) hacc
          · rcases List.mem_singleton.mp hone with rfl
            exact (List.nodup_cons.mp hnd).1 hx),
      List.append_assoc]
    rfl

theorem uniqueVals_bind_replicate (us : List ℤ) (nb : ℕ) (hnd : us.Nodup)
    (hnb : 1 ≤ nb) :
    uniqueVals (us.bind fun t => List.replicate nb t) = us := by
  rw [uniqueVals, uniqueValsAux_bind_replicate nb hnb us [] hnd (by simp)]
  rfl

theorem uniqueVals_join_replicate (us : List ℤ) (n : ℕ) (hnd : us.Nodup)
    (hn : 1 ≤ n) :
    uniqueVals ((List.replicate n us).join) = us := by
  cases n with
  | zero => omega
  | succ m =>
    have hjoin : (List.replicate (m + 1) us).join = us ++ (List.replicate m us).join := by
      rw [List.replicate_succ]
      rfl
    rw [hjoin, uniqueVals, uniqueValsAux_append,
      uniqueValsAux_of_fresh us [] hnd (by simp)]
    rw [List.nil_append]
    exact uniqueValsAux_of_subset _ us (fun x hx => by
      rcases List.mem_join.mp hx with ⟨l, hl, hxl⟩
      rcases List.eq_of_mem_replicate hl with rfl
      exact hxl)

theorem length_bind_replicate (nb : ℕ) :
    ∀ us : List ℤ, (us.bind fun t => List.replicate nb t).length = us.length * nb
  | [] => by simp
  | t :: us => by
    have hcons : (t :: us).bind (fun t => List.replicate nb t) =
        List.replicate nb t ++ us.bind (fun t => List.replicate nb t) := rfl
    rw [hcons, List.length_append, List.length_replicate,
      length_bind_replicate nb us, List.length_cons]
    ring

theorem length_join_replicate (n : ℕ) (us : List ℤ) :
    ((List.replicate n us).join).length = n * us.length := by
  induction n with
  | zero => simp
  | succ m ih =>
    have hjoin : (List.replicate (m + 1) us).join = us ++ (List.replicate m us).join := by
      rw [List.replicate_succ]
      rfl
    rw [hjoin, List.length_append, ih]
    ring

theorem sum_map_length_replicate (nb : ℕ) (us : List ℤ) :
    (List.map (List.length ∘ fun t => List.replicate nb t) us).sum =
      us.length * nb := by
  induction us with
  | nil => simp
  | cons t us ih =>
    simp only [List.map_cons, List.sum_cons, ih, Function.comp_apply,
      List.length_replicate, List.length_cons]
    ring

theorem replicate_get?_one (t : ℤ) (n : ℕ) (hn : 2 ≤ n) :
    (List.replicate n t).get? 1 = some t := by
  cases n with
  | zero => omega
  | succ m =>
    cases m with
    | zero => omega
    | succ k => rfl

theorem join_replicate_ne_bind_replicate (us : List ℤ) (n : ℕ)
    (h2 : 2 ≤ us.length) (hn : 2 ≤ n) (hnd : us.Nodup) :
    (List.replicate n us).join ≠ us.bind fun t => List.replicate n t := by
  cases us with
  | nil => simp at h2
  | cons t0 us' =>
    cases us' with
    | nil => simp at h2
    | cons t1 r =>
      intro heq
      have hL : ((List.replicate n (t0 :: t1 :: r)).join).get? 1 = some t1 := by
        cases n with
        | zero => omega
        | succ m =>
          rw [List.replicate_succ]
          rfl
      have hR : ((t0 :: t1 :: r).bind fun t => List.replicate n t).get? 1 = some t0 := by
        have hcons : ((t0 :: t1 :: r).bind fun t => List.replicate n t) =
            List.replicate n t0 ++ ((t1 :: r).bind fun t => List.replicate n t) := rfl
        rw [hcons]
        rw [List.get?_append (by
          rw [List.length_replicate]
          omega)]
        exact replicate_get?_one t0 n hn
      rw [heq, hR] at hL
      have ht01 : t0 = t1 := by
        injection hL
      exact (List.nodup_cons.mp hnd).1 (by
        rw [ht01]
        exact List.mem_cons_self t1 r)

/-- C9: a full blt axis in which baselines vary fastest within constant-time
blocks is detected as rectangular with `time_axis_faster_than_bls = false`,
the transposed ordering is detected as rectangular with the flag `true`, and
a shuffled non-block ordering is detected as non-rectangular. -/
theorem configure_blt_rectangularity_detection (utimes ubls : List ℤ)
    (hndt : utimes.Nodup) (hndb : ubls.Nodup)
    (h2t : 2 ≤ utimes.length) (h2b : 2 ≤ ubls.length) :
    configure_blt_rectangularity
        (utimes.bind fun t => List.replicate ubls.length t)
        ((List.replicate utimes.length ubls).join) =
      (ubls.length, utimes.length, true, false) ∧
    configure_blt_rectangularity
        ((List.replicate ubls.length utimes).join)
        (ubls.bind fun b => List.replicate utimes.length b) =
      (ubls.length, utimes.length, true, true) ∧
    configure_blt_rectangularity [0, 0, 1, 1] [5, 6, 6, 5] = (2, 2, false, false) := by
  have hut : uniqueVals (utimes.bind fun t => List.replicate ubls.length t) = utimes :=
    uniqueVals_bind_replicate utimes ubls.length hndt (by omega)
  have hub : uniqueVals ((List.replicate utimes.length ubls).join) = ubls :=
    uniqueVals_join_replicate ubls utimes.length hndb (by omega)
  have hut2 : uniqueVals ((List.replicate ubls.length utimes).join) = utimes :=
    uniqueVals_join_replicate utimes ubls.length hndt (by omega)
  have hub2 : uniqueVals (ubls.bind fun b => List.replicate utimes.length b) = ubls :=
    uniqueVals_bind_replicate ubls utimes.length hndb (by omega)
  have hne := join_replicate_ne_bind_replicate utimes ubls.length h2t h2b hndt
  refine ⟨?_, ?_, by decide⟩
  · simp [configure_blt_rectangularity, hut, hub, length_bind_replicate]
    exact sum_map_length_replicate _ _
  · simp [configure_blt_rectangularity, hut2, hub2, length_join_replicate,
      Nat.mul_comm, hne]

/-- Closed-form instantiation of `configure_blt_rectangularity_detection`. -/
theorem configure_blt_rectangularity_detection_witness :
    configure_blt_rectangularity [7, 7, 8, 8, 9, 9] [5, 6, 5, 6, 5, 6] =
      (2, 3, true, false) ∧
    configure_blt_rectangularity [7, 8, 9, 7, 8, 9] [5, 5, 5, 6, 6, 6] =
      (2, 3, true, true) := by
  have h := configure_blt_rectangularity_detection [7, 8, 9] [5, 6]
    (by decide) (by decide) (by decide) (by decide)
  have h1 := h.1
  have h2 := h.2.1
  norm_num at h1 h2
  exact ⟨h1, h2⟩

/-! ## FHD settings-file history extraction (`get_fhd_history`, fhd.py
lines 18-72)

Settings-file lines are modelled as character lists without their terminating
newline; a `none` result models a raised Python exception (a `TypeError` from
indexing with a still-`None` marker location, or an `IndexError` from a
`User` line with fewer than two tokens).
-/

/-- The `##MAIN` section marker. -/
def mainMarker : List Char := "##MAIN".toList

/-- The `##COMMAND_LINE` section marker. -/
def commandMarker : List Char := "##COMMAND_LINE".toList

/-- The `##OBS` section marker. -/
def obsMarker : List Char := "##OBS".toList

/-- The `User` line marker. -/
def userMarker : List Char := "User".toList

/-- The four marker locations tracked by the scanning loop of fhd.py
lines 40-59. -/
structure ScanState where
  main_loc : Option ℕ
  command_loc : Option ℕ
  obs_loc : Option ℕ
  user_line : Option ℕ
deriving DecidableEq, Repr

/-- One iteration of the marker scan: each location is overwritten whenever
its marker starts the current line. -/
def scanUpdate (st : ScanState) (ind : ℕ) (line : List Char) : ScanState :=
  { main_loc := if mainMarker.isPrefixOf line then some ind else st.main_loc
    command_loc := if commandMarker.isPrefixOf line then some ind else st.command_loc
    obs_loc := if obsMarker.isPrefixOf line then some ind else st.obs_loc
    user_line := if userMarker.isPrefixOf line then some ind else st.user_line }

/-- The early-exit condition of fhd.py lines 53-59: all four markers found. -/
def scanDone (st : ScanState) : Bool :=
  st.main_loc.isSome && st.command_loc.isSome && st.obs_loc.isSome &&
    st.user_line.isSome

/-- The scanning loop of fhd.py lines 44-59. -/
def scanLines : ℕ → ScanState → List (List Char) → ScanState
  | _, st, [] => st
  | ind, st, line :: rest =>
    if scanDone (scanUpdate st ind line) then scanUpdate st ind line
    else scanLines (ind + 1) (scanUpdate st ind line) rest

/-- Python slice `l[a:b]`. -/
def pySlice {α : Type} (l : List α) (a b : ℕ) : List α := (l.drop a).take (b - a)

/-- Python `str.rstrip()`: strip trailing whitespace. -/
def rstrip (l : List Char) : List Char :=
  (l.reverse.dropWhile Char.isWhitespace).reverse

/-- The tab normalization of fhd.py line 65. -/
def tabToSpace (c : Char) : Char := if c = '\t' then ' ' else c

/-- fhd.py line 65: `line.rstrip().replace("\t", " ")`. -/
def cleanLine (l : List Char) : List Char := (rstrip l).map tabToSpace

/-- Helper for Python `str.split()`: cut at whitespace, keeping empty pieces. -/
def splitWsAux : List Char → List Char → List (List Char)
  | [], cur => [cur.reverse]
  | c :: rest, cur =>
    if Char.isWhitespace c then cur.reverse :: splitWsAux rest []
    else splitWsAux rest (c :: cur)

/-- Python `str.split()` with no separator: whitespace runs, empties dropped. -/
def pySplit (l : List Char) : List (List Char) :=
  (splitWsAux l []).filter (fun s => s ≠ [])

/-- Embedding of fhd.py lines 18-72 (`get_fhd_history`): scan for the four
markers with early exit, slice the MAIN and COMMAND_LINE sections, clean and
join them under the "FHD history" header, and extract the second token of the
`User` line (unconditionally, even when `return_user` is false). -/
def get_fhd_history (lines : List (List Char)) (return_user : Bool) :
    Option (List Char × Option (List Char)) :=
  let st := scanLines 0 ⟨none, none, none, none⟩ lines
  match st.main_loc, st.command_loc with
  | some m, some c =>
    let main_lines := pySlice lines (m + 1) c
    let command_lines :=
      match st.obs_loc with
      | some o => pySlice lines (c + 1) o
      | none => lines.drop (c + 1)
    let history_lines :=
      ("FHD history\n".toList :: (main_lines ++ command_lines)).map cleanLine
    let history := List.intercalate "\n".toList history_lines
    match st.user_line with
    | some u =>
      match (pySplit ((lines.get? u).getD [])).get? 1 with
      | some user => some (history, if return_user then some user else none)
      | none => none
    | none => none
  | _, _ => none

/-- A line starting with none of the four markers. -/
def lineMatchesNone (l : List Char) : Prop :=
  mainMarker.isPrefixOf l = false ∧ commandMarker.isPrefixOf l = false ∧
    obsMarker.isPrefixOf l = false ∧ userMarker.isPrefixOf l = false

instance (l : List Char) : Decidable (lineMatchesNone l) := by
  unfold lineMatchesNone
  infer_instance

theorem isPrefixOf_append_self : ∀ (p s : List Char), p.isPrefixOf (p ++ s) = true
  | [], _ => by simp [List.isPrefixOf]
  | a :: p, s => by
    simp [List.isPrefixOf, isPrefixOf_append_self p s]

theorem cmd_not_on_main (s : List Char) :
    commandMarker.isPrefixOf (mainMarker ++ s) = false := rfl

theorem obs_not_on_main (s : List Char) :
    obsMarker.isPrefixOf (mainMarker ++ s) = false := rfl

theorem user_not_on_main (s : List Char) :
    userMarker.isPrefixOf (mainMarker ++ s) = false := rfl

theorem main_not_on_cmd (s : List Char) :
    mainMarker.isPrefixOf (commandMarker ++ s) = false := rfl

theorem obs_not_on_cmd (s : List Char) :
    obsMarker.isPrefixOf (commandMarker ++ s) = false := rfl

theorem user_not_on_cmd (s : List Char) :
    userMarker.isPrefixOf (commandMarker ++ s) = false := rfl

theorem main_not_on_obs (s : List Char) :
    mainMarker.isPrefixOf (obsMarker ++ s) = false := rfl

theorem cmd_not_on_obs (s : List Char) :
    commandMarker.isPrefixOf (obsMarker ++ s) = false := rfl

theorem user_not_on_obs (s : List Char) :
    userMarker.isPrefixOf (obsMarker ++ s) = false := rfl

theorem main_not_on_user (s : List Char) :
    mainMarker.isPrefixOf (userMarker ++ s) = false := rfl

theorem cmd_not_on_user (s : List Char) :
    commandMarker.isPrefixOf (userMarker ++ s) = false := rfl

theorem obs_not_on_user (s : List Char) :
    obsMarker.isPrefixOf (userMarker ++ s) = false := rfl

theorem scanUpdate_none (st : ScanState) (ind : ℕ) (l : List Char)
    (h : lineMatchesNone l) : scanUpdate st ind l = st := by
  obtain ⟨h1, h2, h3, h4⟩ := h
  simp [scanUpdate, h1, h2, h3, h4]

theorem scanUpdate_main (st : ScanState) (ind : ℕ) (s : List Char) :
    scanUpdate st ind (mainMarker ++ s) = { st with main_loc := some ind } := by
  simp [scanUpdate, isPrefixOf_append_self, cmd_not_on_main, obs_not_on_main,
    user_not_on_main]

theorem scanUpdate_user (st : ScanState) (ind : ℕ) (s : List Char) :
    scanUpdate st ind (userMarker ++ s) = { st with user_line := some ind } := by
  simp [scanUpdate, isPrefixOf_append_self, main_not_on_user, cmd_not_on_user,
    obs_not_on_user]

theorem scanUpdate_cmd (st : ScanState) (ind : ℕ) (s : List Char) :
    scanUpdate st ind (commandMarker ++ s) =
      { st with command_loc := some ind } := by
  simp [scanUpdate, isPrefixOf_append_self, main_not_on_cmd, obs_not_on_cmd,
    user_not_on_cmd]

theorem scanUpdate_obs (st : ScanState) (ind : ℕ) (s : List Char) :
    scanUpdate st ind (obsMarker ++ s) = { st with obs_loc := some ind } := by
  simp [scanUpdate, isPrefixOf_append_self, main_not_on_obs, cmd_not_on_obs,
    user_not_on_obs]

theorem scanLines_cons (ind : ℕ) (st : ScanState) (line : List Char)
    (rest : List (List Char)) :
    scanLines ind st (line :: rest) =
      if scanDone (scanUpdate st ind line) then scanUpdate st ind line
      else scanLines (ind + 1) (scanUpdate st ind line) rest := rfl

theorem scanLines_skip :
    ∀ (xs : List (List Char)) (rest : List (List Char)) (ind : ℕ) (st : ScanState),
      (∀ l ∈ xs, lineMatchesNone l) → scanDone st = false →
      scanLines ind st (xs ++ rest) = scanLines (ind + xs.length) st rest
  | [], rest, ind, st, _, _ => by simp
  | l :: xs, rest, ind, st, h, hdone => by
    rw [List.cons_append, scanLines_cons,
      scanUpdate_none st ind l (h l (List.mem_cons_self l xs)),
      if_neg (by rw [hdone]; simp),
      scanLines_skip xs rest (ind + 1) st
        (fun x hx => h x (List.mem_cons_of_mem l hx)) hdone]
    have harith : ind + 1 + xs.length = ind + (xs.length + 1) := by omega
    rw [harith]
    rfl

theorem scanLines_no_user :
    ∀ (xs : List (List Char)) (ind : ℕ) (st : ScanState),
      (∀ l ∈ xs, userMarker.isPrefixOf l = false) → st.user_line = none →
      (scanLines ind st xs).user_line = none
  | [], _, _, _, h0 => h0
  | l :: xs, ind, st, h, h0 => by
    have hupd : (scanUpdate st ind l).user_line = none := by
      rw [scanUpdate]
      simp only [h l (List.mem_cons_self l xs)]
      simpa using h0
    rw [scanLines_cons]
    by_cases hd : scanDone (scanUpdate st ind l) = true
    · rw [if_pos hd]
      exact hupd
    · rw [if_neg hd]
      exact scanLines_no_user xs (ind + 1) (scanUpdate st ind l)
        (fun x hx => h x (List.mem_cons_of_mem l hx)) hupd

theorem pySlice_eq_middle {α : Type} (L l1 mid l2 : List α) (a b : ℕ)
    (hL : L = l1 ++ mid ++ l2) (ha : a = l1.length) (hb : b = a + mid.length) :
    pySlice L a b = mid := by
  subst hL ha hb
  rw [pySlice, List.append_assoc, List.drop_left]
  have harith : l1.length + mid.length - l1.length = mid.length := by omega
  rw [harith, List.take_left]

theorem get?_eq_middle {α : Type} (L l1 : List α) (x : α) (l2 : List α) (u : ℕ)
    (hL : L = l1 ++ x :: l2) (hu : u = l1.length) : L.get? u = some x := by
  subst hL hu
  induction l1 with
  | nil => rfl
  | cons a l1 ih => simpa using ih

/-- C10: `get_fhd_history` extracts the `User` token unconditionally, so a
settings file with no line beginning "User" (even one containing the three
`##` section markers) fails with an exception, as does a file whose `User`
line has fewer than two whitespace-delimited tokens. -/
theorem get_fhd_history_missing_user (lines : List (List Char)) (ret : Bool)
    (h : ∀ l ∈ lines, userMarker.isPrefixOf l = false) :
    get_fhd_history lines ret = none ∧
    get_fhd_history ["##MAIN".toList, "##COMMAND_LINE".toList, "##OBS".toList,
      "User".toList] ret = none := by
  constructor
  · have hu := scanLines_no_user lines 0 ⟨none, none, none, none⟩ h rfl
    rcases hst : scanLines 0 ⟨none, none, none, none⟩ lines with ⟨ml, cl, ol, ul⟩
    rw [hst] at hu
    simp only at hu
    subst hu
    rw [get_fhd_history]
    rw [hst]
    cases ml <;> cases cl <;> cases ol <;> rfl
  · cases ret <;> rfl

/-- Closed-form instantiation of `get_fhd_history_missing_user`: a settings
file containing the three section markers but no `User` line makes
`get_fhd_history` fail. -/
theorem get_fhd_history_missing_user_witness :
    get_fhd_history ["##MAIN".toList, "history line".toList,
      "##COMMAND_LINE".toList, "##OBS".toList] false = none :=
  (get_fhd_history_missing_user ["##MAIN".toList, "history line".toList,
    "##COMMAND_LINE".toList, "##OBS".toList] false (by decide)).1

/-- C8: on a settings file with the four markers in order (the `User` line
inside the MAIN section, each marker occurring once), `get_fhd_history`
returns the "FHD history" header line followed by exactly the lines between
`##MAIN` and `##COMMAND_LINE` and between `##COMMAND_LINE` and `##OBS`, each
line with trailing whitespace stripped and tabs replaced by spaces, joined by
newlines; with `return_user` it additionally returns the second
whitespace-delimited token of the `User` line. -/
theorem get_fhd_history_sections
    (pre mids1 mids2 cmds post : List (List Char)) (sm su sc so tok : List Char)
    (ret : Bool)
    (hpre : ∀ l ∈ pre, lineMatchesNone l)
    (hm1 : ∀ l ∈ mids1, lineMatchesNone l)
    (hm2 : ∀ l ∈ mids2, lineMatchesNone l)
    (hcm : ∀ l ∈ cmds, lineMatchesNone l)
    (htok : (pySplit (userMarker ++ su)).get? 1 = some tok) :
    get_fhd_history
        (pre ++ (mainMarker ++ sm) :: (mids1 ++ (userMarker ++ su) ::
          (mids2 ++ (commandMarker ++ sc) :: (cmds ++ (obsMarker ++ so) :: post))))
        ret =
      some (List.intercalate "\n".toList
        (("FHD history\n".toList ::
          ((mids1 ++ (userMarker ++ su) :: mids2) ++ cmds)).map cleanLine),
        if ret then some tok else none) ∧
    cleanLine "FHD history\n".toList = "FHD history".toList := by
  refine ⟨?_, by decide⟩
  have hscan : scanLines 0 ⟨none, none, none, none⟩
      (pre ++ (mainMarker ++ sm) :: (mids1 ++ (userMarker ++ su) ::
        (mids2 ++ (commandMarker ++ sc) :: (cmds ++ (obsMarker ++ so) :: post)))) =
      ⟨some pre.length,
        some (pre.length + 1 + mids1.length + 1 + mids2.length),
        some (pre.length + 1 + mids1.length + 1 + mids2.length + 1 + cmds.length),
        some (pre.length + 1 + mids1.length)⟩ := by
    rw [scanLines_skip pre _ 0 ⟨none, none, none, none⟩ hpre rfl, Nat.zero_add,
      scanLines_cons, scanUpdate_main]
    rw [if_neg (by simp [scanDone])]
    rw [scanLines_skip mids1 _ _ _ hm1 (by simp [scanDone]), scanLines_cons,
      scanUpdate_user]
    rw [if_neg (by simp [scanDone])]
    rw [scanLines_skip mids2 _ _ _ hm2 (by simp [scanDone]), scanLines_cons,
      scanUpdate_cmd]
    rw [if_neg (by simp [scanDone])]
    rw [scanLines_skip cmds _ _ _ hcm (by simp [scanDone]), scanLines_cons,
      scanUpdate_obs]
    rw [if_pos (by simp [scanDone])]
  have hmainslice : pySlice
      (pre ++ (mainMarker ++ sm) :: (mids1 ++ (userMarker ++ su) ::
        (mids2 ++ (commandMarker ++ sc) :: (cmds ++ (obsMarker ++ so) :: post))))
      (pre.length + 1) (pre.length + 1 + mids1.length + 1 + mids2.length) =
      mids1 ++ (userMarker ++ su) :: mids2 := by
    refine pySlice_eq_middle _ (pre ++ [mainMarker ++ sm])
      (mids1 ++ (userMarker ++ su) :: mids2)
      ((commandMarker ++ sc) :: (cmds ++ (obsMarker ++ so) :: post)) _ _ ?_ ?_ ?_ <;>
      first
        | (simp; omega)
        | simp
  have hcmdslice : pySlice
      (pre ++ (mainMarker ++ sm) :: (mids1 ++ (userMarker ++ su) ::
        (mids2 ++ (commandMarker ++ sc) :: (cmds ++ (obsMarker ++ so) :: post))))
      (pre.length + 1 + mids1.length + 1 + mids2.length + 1)
      (pre.length + 1 + mids1.length + 1 + mids2.length + 1 + cmds.length) =
      cmds := by
    refine pySlice_eq_middle _
      (pre ++ (mainMarker ++ sm) :: (mids1 ++ (userMarker ++ su) ::
        (mids2 ++ [commandMarker ++ sc])))
      cmds ((obsMarker ++ so) :: post) _ _ ?_ ?_ ?_ <;>
      first
        | (simp; omega)
        | simp
  have huser :
      (pre ++ (mainMarker ++ sm) :: (mids1 ++ (userMarker ++ su) ::
        (mids2 ++ (commandMarker ++ sc) :: (cmds ++ (obsMarker ++ so) :: post)))).get?
        (pre.length + 1 + mids1.length) = some (userMarker ++ su) := by
    refine get?_eq_middle _ (pre ++ (mainMarker ++ sm) :: mids1) _
      (mids2 ++ (commandMarker ++ sc) :: (cmds ++ (obsMarker ++ so) :: post)) _
      ?_ ?_ <;>
      first
        | (simp; omega)
        | simp
  simp only [get_fhd_history, hscan, hmainslice, hcmdslice, huser,
    Option.getD_some, htok]

/-- Closed-form instantiation of `get_fhd_history_sections`. -/
theorem get_fhd_history_sections_witness :
    get_fhd_history ([] ++ (mainMarker ++ []) :: ([] ++ (userMarker ++ " jdoe".toList) ::
        (["extra".toList] ++ (commandMarker ++ []) ::
          (["cmd".toList] ++ (obsMarker ++ []) :: [])))) true =
      some (List.intercalate "\n".toList
        (("FHD history\n".toList ::
          (([] ++ (userMarker ++ " jdoe".toList) :: ["extra".toList]) ++
            ["cmd".toList])).map cleanLine),
        some "jdoe".toList) := by
  have h := get_fhd_history_sections [] [] ["extra".toList] ["cmd".toList] []
    [] " jdoe".toList [] [] "jdoe".toList true
    (by simp) (by simp) (by decide) (by decide) (by decide)
  simpa using h.1

end Pyuvdata
